import Mathlib

/-!
Shallow embedding of the pdf-to-markdown job service core
(`src/pdf2md/jobs/*.py`, `src/pdf2md/auth/*.py`) and proofs of the
specification's claims about it.

Modelling conventions:
* the SQLite tables behind `JobQueue` and `TokenManager` are lists of rows;
  `fetch_one ... WHERE x = ?` is `List.find?`, `INSERT` appends, `UPDATE ...
  WHERE x = ?` maps a row transformer over the list, `DELETE ... WHERE x = ?`
  filters;
* wall-clock instants (`datetime.now()`) are passed explicitly as numeric
  arguments; job-store instants are `Nat`, rate-limiter instants are `Int`
  (the Python code subtracts 60 seconds from them);
* randomness (`secrets.choice`, `secrets.token_bytes`, `bcrypt.gensalt`) is
  externalised as explicit arguments (choice streams / fresh strings);
* a bcrypt hash `bcrypt.hashpw(secret, gensalt())` is modelled as the pair
  `(salt, secret)`; `bcrypt.checkpw s h` is `s == h.2`, capturing exactly
  that verification succeeds iff the presented secret is the hashed one;
* exceptions raised by collaborators (PDF conversion, result-file writes,
  Redis calls) are externalised as `Except`/`Bool` arguments.
-/

/-! ## Job model (`src/pdf2md/jobs/models.py`) -/

/-- `JobStatus` enum from `jobs/models.py`. -/
inductive JobStatus where
  | PENDING
  | RUNNING
  | COMPLETED
  | FAILED
  | CANCELLED
deriving DecidableEq, Repr

/-- Terminal statuses per spec §4.2: COMPLETED, FAILED, CANCELLED. -/
def JobStatus.isTerminal : JobStatus → Bool
  | .COMPLETED => true
  | .FAILED => true
  | .CANCELLED => true
  | _ => false

/-- `Job` dataclass from `jobs/models.py` / row of the `jobs` table. -/
structure Job where
  strJobId : String
  strOwnerUserId : String
  strPdfPath : String
  status : JobStatus
  optResultPath : Option String
  optErrorMessage : Option String
  datetimeCreatedAt : Nat
  optStartedAt : Option Nat
  optCompletedAt : Option Nat
  boolThrottled : Bool
  optThrottledBy : Option String
  strOptions : String
deriving DecidableEq, Repr

/-- The `jobs` table backing `JobQueue` (`jobs/queue.py`). -/
structure JobQueue where
  jobs : List Job
deriving DecidableEq, Repr

/-- `JobQueue.get_job`: `SELECT * FROM jobs WHERE job_id = ?`. -/
def JobQueue.get_job (q : JobQueue) (strJobId : String) : Option Job :=
  q.jobs.find? (fun j => j.strJobId == strJobId)

/-- Row transformer of `JobQueue.update_job_status`'s three UPDATE statements
(`jobs/queue.py` lines 210-229): RUNNING sets `started_at`; COMPLETED, FAILED
and CANCELLED set `completed_at`, `result_path` and `error_message`; any other
status writes only the status column. -/
def applyStatus (strJobId : String) (status : JobStatus)
    (optResultPath optErrorMessage : Option String) (now : Nat) (j : Job) : Job :=
  if j.strJobId == strJobId then
    if status == JobStatus.RUNNING then
      { j with status := status, optStartedAt := some now }
    else if status == JobStatus.COMPLETED || status == JobStatus.FAILED
        || status == JobStatus.CANCELLED then
      { j with status := status, optCompletedAt := some now,
               optResultPath := optResultPath, optErrorMessage := optErrorMessage }
    else
      { j with status := status }
  else j

/-- `JobQueue.update_job_status` (`jobs/queue.py` lines 187-231): returns the
updated queue and `True` iff the job exists; performs no transition
validation. -/
def JobQueue.update_job_status (q : JobQueue) (strJobId : String) (status : JobStatus)
    (optResultPath optErrorMessage : Option String) (now : Nat) : JobQueue × Bool :=
  match q.get_job strJobId with
  | none => (q, false)
  | some _ =>
      (⟨q.jobs.map (applyStatus strJobId status optResultPath optErrorMessage now)⟩, true)

/-- `JobQueue.cancel_job` (`jobs/queue.py` lines 233-252): cancels only
PENDING or RUNNING jobs, returns `False` otherwise. -/
def JobQueue.cancel_job (q : JobQueue) (strJobId : String) (now : Nat) : JobQueue × Bool :=
  match q.get_job strJobId with
  | none => (q, false)
  | some job =>
      if job.status == JobStatus.PENDING || job.status == JobStatus.RUNNING then
        ((q.update_job_status strJobId JobStatus.CANCELLED none none now).1, true)
      else
        (q, false)

/-- `JobQueue.throttle_job` (`jobs/queue.py` lines 254-275). -/
def JobQueue.throttle_job (q : JobQueue) (strJobId : String) (boolThrottled : Bool)
    (strUserId : String) : JobQueue × Bool :=
  match q.get_job strJobId with
  | none => (q, false)
  | some _ =>
      (⟨q.jobs.map (fun j =>
          if j.strJobId == strJobId then
            { j with boolThrottled := boolThrottled,
                     optThrottledBy := if boolThrottled then some strUserId else none }
          else j)⟩, true)

/-! ## Job id generation (`src/pdf2md/jobs/id_generator.py`) -/

/-- `string.ascii_letters + string.digits`: the 62-character alphabet. -/
def strAlphabet : List Char :=
  "abcdefghijklmnopqrstuvwxyzABCDEFGHIJKLMNOPQRSTUVWXYZ0123456789".data

/-- `generate_job_id` (`jobs/id_generator.py`): builds a string of `intLength`
characters drawn from `strAlphabet`; the stream of `secrets.choice` draws is
externalised as `choices : Nat → Fin 62`. -/
def generate_job_id (choices : Nat → Fin 62) (intLength : Nat) : String :=
  String.mk ((List.range intLength).map (fun i => strAlphabet.getD (choices i).val 'a'))

/-- The collision-retry loop of `JobQueue.create_job` (`jobs/queue.py` lines
48-59): `ids k` is the `k`-th value returned by `generate_job_id`; starting at
`attempts` with candidate `cur = ids attempts`, checks the candidate against
the table while `attempts < 10`, regenerating on collision; when `attempts`
reaches 10 it raises `RuntimeError`. -/
def JobQueue.idLoopAux (q : JobQueue) (ids : Nat → String) :
    Nat → Nat → String → Except String String
  | 0, _, _ => Except.error "Failed to generate unique job ID after 10 attempts"
  | remaining + 1, attempts, cur =>
      match q.get_job cur with
      | none => Except.ok cur
      | some _ => q.idLoopAux ids remaining (attempts + 1) (ids (attempts + 1))

/-- The loop entry point: `attempts = 0`, candidate `ids 0`, and
`remaining = 10 - attempts = 10` loop iterations allowed. -/
def JobQueue.idLoop (q : JobQueue) (ids : Nat → String) : Except String String :=
  q.idLoopAux ids 10 0 (ids 0)

/-- `JobQueue.create_job` (`jobs/queue.py` lines 28-84): finds a fresh id via
the retry loop, then inserts a PENDING row with `created_at = now`, no
start/completion timestamps, no result or error, unthrottled. Returns the new
queue and the job id, or the `RuntimeError` text. -/
def JobQueue.create_job (q : JobQueue) (strOwnerUserId strPdfPath strOptionsJson : String)
    (ids : Nat → String) (now : Nat) : Except String (JobQueue × String) :=
  match q.idLoop ids with
  | Except.error e => Except.error e
  | Except.ok strJobId =>
      Except.ok
        (⟨q.jobs ++ [{ strJobId := strJobId, strOwnerUserId := strOwnerUserId,
                       strPdfPath := strPdfPath, status := JobStatus.PENDING,
                       optResultPath := none, optErrorMessage := none,
                       datetimeCreatedAt := now, optStartedAt := none,
                       optCompletedAt := none, boolThrottled := false,
                       optThrottledBy := none, strOptions := strOptionsJson }]⟩,
         strJobId)

/-! ## Job listing (`JobQueue.list_jobs`, `jobs/queue.py` lines 118-185) -/

/-- Insert a job into a list sorted by `created_at` descending (model of the
SQL `ORDER BY created_at DESC`; ties keep the incoming element first, a
deterministic refinement of SQLite's unspecified tie order). -/
def insertByCreatedDesc (j : Job) : List Job → List Job
  | [] => [j]
  | k :: rest =>
      if k.datetimeCreatedAt ≤ j.datetimeCreatedAt then j :: k :: rest
      else k :: insertByCreatedDesc j rest

/-- Sort jobs by `created_at` descending. -/
def sortByCreatedDesc : List Job → List Job
  | [] => []
  | j :: rest => insertByCreatedDesc j (sortByCreatedDesc rest)

/-- The WHERE clause built by `list_jobs`: optional status and owner filters. -/
def listJobsPred (optStatus : Option JobStatus) (optOwnerUserId : Option String) (j : Job) :
    Bool :=
  (match optStatus with
   | none => true
   | some s => j.status == s) &&
  (match optOwnerUserId with
   | none => true
   | some o => j.strOwnerUserId == o)

/-- `JobQueue.list_jobs`: filters, counts the filtered set, orders by
`created_at DESC`, then applies `LIMIT intLimit OFFSET intOffset`. -/
def JobQueue.list_jobs (q : JobQueue) (optStatus : Option JobStatus)
    (optOwnerUserId : Option String) (intLimit intOffset : Nat) : List Job × Nat :=
  let filtered := q.jobs.filter (listJobsPred optStatus optOwnerUserId)
  (((sortByCreatedDesc filtered).drop intOffset).take intLimit, filtered.length)

/-! ## Background worker (`src/pdf2md/jobs/worker.py`) -/

/-- `JobWorker._get_next_job` (`jobs/worker.py` lines 84-104): asks the queue
for at most one PENDING job (newest first), returns none if there is none or
if that single job is throttled. -/
def JobWorker.get_next_job (q : JobQueue) : Option Job :=
  match (q.list_jobs (some JobStatus.PENDING) none 1 0).1 with
  | [] => none
  | job :: _ => if job.boolThrottled then none else some job

/-- `JobWorker._process_job` (`jobs/worker.py` lines 106-151). The PDF
conversion (`_convert_pdf_sync`, including `json.loads` of the options) is
externalised as `conv : pdfPath → options → Except errorText markdown`; the
result-file write as `persist : jobId → markdown → Except errorText
resultPath`. Every exception from either is caught: the job is marked FAILED
with `str(e)` as its error message, and the function returns normally. -/
def JobWorker.process_job (q : JobQueue) (strJobId : String)
    (conv : String → String → Except String String)
    (persist : String → String → Except String String) (now : Nat) : JobQueue :=
  match q.get_job strJobId with
  | none => q
  | some job =>
      let q1 := (q.update_job_status strJobId JobStatus.RUNNING none none now).1
      match conv job.strPdfPath job.strOptions with
      | Except.error e =>
          (q1.update_job_status strJobId JobStatus.FAILED none (some e) now).1
      | Except.ok md =>
          match persist strJobId md with
          | Except.error e =>
              (q1.update_job_status strJobId JobStatus.FAILED none (some e) now).1
          | Except.ok path =>
              (q1.update_job_status strJobId JobStatus.COMPLETED (some path) none now).1

/-! ## Roles and permissions (`src/pdf2md/auth/models.py`, `auth/permissions.py`) -/

/-- `Role` enum from `auth/models.py`. -/
inductive Role where
  | ADMIN
  | JOB_MANAGER
  | JOB_WRITER
  | JOB_READER
deriving DecidableEq, Repr

/-- `Permission` enum from `auth/permissions.py`. -/
inductive Permission where
  | CREATE_JOB
  | VIEW_OWN_JOBS
  | VIEW_ALL_JOBS
  | STOP_OWN_JOBS
  | STOP_ALL_JOBS
  | THROTTLE_JOBS
  | GRANT_JOB_ACCESS
  | CREATE_TOKEN
  | CREATE_ADMIN_TOKEN
  | VIEW_TOKENS
  | REVOKE_TOKEN
  | MODIFY_TOKEN
  | VIEW_TOKEN_USAGE
deriving DecidableEq, Repr

/-- `ROLE_PERMISSIONS` table from `auth/permissions.py` lines 31-65. -/
def ROLE_PERMISSIONS : Role → List Permission
  | Role.ADMIN =>
      [Permission.CREATE_JOB, Permission.VIEW_OWN_JOBS, Permission.VIEW_ALL_JOBS,
       Permission.STOP_OWN_JOBS, Permission.STOP_ALL_JOBS, Permission.THROTTLE_JOBS,
       Permission.GRANT_JOB_ACCESS, Permission.CREATE_TOKEN, Permission.CREATE_ADMIN_TOKEN,
       Permission.VIEW_TOKENS, Permission.REVOKE_TOKEN, Permission.MODIFY_TOKEN,
       Permission.VIEW_TOKEN_USAGE]
  | Role.JOB_MANAGER =>
      [Permission.CREATE_JOB, Permission.VIEW_OWN_JOBS, Permission.VIEW_ALL_JOBS,
       Permission.STOP_OWN_JOBS, Permission.STOP_ALL_JOBS, Permission.THROTTLE_JOBS]
  | Role.JOB_WRITER =>
      [Permission.CREATE_JOB, Permission.VIEW_OWN_JOBS, Permission.STOP_OWN_JOBS,
       Permission.GRANT_JOB_ACCESS]
  | Role.JOB_READER =>
      [Permission.VIEW_OWN_JOBS]

/-- `User` dataclass from `auth/models.py` (the authenticated Principal). -/
structure User where
  strTokenId : String
  strUserId : String
  role : Role
  intRateLimit : Nat
  boolIsActive : Bool
  optExpiresAt : Option Nat
deriving DecidableEq, Repr

/-- `check_permission` from `auth/permissions.py` lines 68-80:
`permission in ROLE_PERMISSIONS.get(user.role, set())`. -/
def check_permission (user : User) (permission : Permission) : Bool :=
  (ROLE_PERMISSIONS user.role).contains permission

/-- Modelled from the spec: the §4.5 permission table, read off the spec's
markdown table cell by cell. The spec's `view/revoke/modify tokens` column
covers the four token-administration permissions (view, revoke, modify, view
usage). Compared against `check_permission`, which is translated from the
source. -/
def specPermissionTable (role : Role) (permission : Permission) : Bool :=
  match role, permission with
  | Role.ADMIN, _ => true
  | Role.JOB_MANAGER, Permission.CREATE_JOB => true
  | Role.JOB_MANAGER, Permission.VIEW_OWN_JOBS => true
  | Role.JOB_MANAGER, Permission.VIEW_ALL_JOBS => true
  | Role.JOB_MANAGER, Permission.STOP_OWN_JOBS => true
  | Role.JOB_MANAGER, Permission.STOP_ALL_JOBS => true
  | Role.JOB_MANAGER, Permission.THROTTLE_JOBS => true
  | Role.JOB_MANAGER, _ => false
  | Role.JOB_WRITER, Permission.CREATE_JOB => true
  | Role.JOB_WRITER, Permission.VIEW_OWN_JOBS => true
  | Role.JOB_WRITER, Permission.STOP_OWN_JOBS => true
  | Role.JOB_WRITER, Permission.GRANT_JOB_ACCESS => true
  | Role.JOB_WRITER, _ => false
  | Role.JOB_READER, Permission.VIEW_OWN_JOBS => true
  | Role.JOB_READER, _ => false

/-! ## Token manager (`src/pdf2md/auth/token_manager.py`) -/

/-- A bcrypt hash `hashpw(secret, salt)`, modelled as the `(salt, secret)`
pair: distinct salts give distinct hashes for the same secret, and
`checkpw` succeeds exactly on the hashed secret. -/
def bcryptHashpw (secret salt : String) : String × String := (salt, secret)

/-- `bcrypt.checkpw(presented, stored)`. -/
def bcryptCheckpw (presented : String) (stored : String × String) : Bool :=
  presented == stored.2

/-- Row of the `tokens` table (`auth/models.py` `Token`). -/
structure TokenRow where
  token_id : String
  token_hash : String × String
  user_id : String
  role : Role
  created_at : Nat
  expires_at : Option Nat
  is_active : Bool
  rate_limit : Nat
  created_by : Option String
deriving DecidableEq, Repr

/-- The `tokens` table backing `TokenManager`. -/
structure TokenStore where
  rows : List TokenRow
deriving DecidableEq, Repr

/-- Role-based default rate limits from `TokenManager.create_token`
(`auth/token_manager.py` lines 79-86). -/
def defaultRateLimit : Role → Nat
  | Role.ADMIN => 1000
  | Role.JOB_MANAGER => 500
  | Role.JOB_WRITER => 100
  | Role.JOB_READER => 50

/-- `TokenManager.generate_token` (`auth/token_manager.py` lines 30-41):
prefixes the base64-encoded 256-bit random value, externalised as
`rawSecret`, with `pdf2md_`. -/
def generate_token (rawSecret : String) : String :=
  "pdf2md_" ++ rawSecret

/-- `TokenManager.create_token` (`auth/token_manager.py` lines 43-110):
hashes the generated secret, resolves the expiry (`now + days`, in seconds
here) and the rate limit (role default when not supplied), and inserts an
active row. Returns the new store, the token id and the secret. The fresh
UUID `strTokenId`, the random secret material `rawSecret` and the bcrypt salt
are externalised. -/
def TokenStore.create_token (st : TokenStore) (strUserId : String) (role : Role)
    (optExpiresDays : Option Nat) (optCreatedBy : Option String) (optRateLimit : Option Nat)
    (strTokenId rawSecret salt : String) (now : Nat) : TokenStore × String × String :=
  let strToken := generate_token rawSecret
  let intRateLimit :=
    match optRateLimit with
    | some n => n
    | none => defaultRateLimit role
  let optExpiresAt := optExpiresDays.map (fun d => now + d * 86400)
  (⟨st.rows ++ [{ token_id := strTokenId, token_hash := bcryptHashpw strToken salt,
                  user_id := strUserId, role := role, created_at := now,
                  expires_at := optExpiresAt, is_active := true,
                  rate_limit := intRateLimit, created_by := optCreatedBy }]⟩,
   strTokenId, strToken)

/-- Check that a presented token has the `pdf2md_` prefix
(`strToken.startswith("pdf2md_")` in `validate_token`). -/
def listStartsWith : List Char → List Char → Bool
  | [], _ => true
  | _ :: _, [] => false
  | p :: ps, c :: cs => p == c && listStartsWith ps cs

/-- `strToken.startswith("pdf2md_")`. -/
def hasTokenFormat (strToken : String) : Bool :=
  listStartsWith "pdf2md_".data strToken.data

/-- The User built from a matching row in `validate_token`. -/
def userOfRow (row : TokenRow) : User :=
  { strTokenId := row.token_id, strUserId := row.user_id, role := row.role,
    intRateLimit := row.rate_limit, boolIsActive := row.is_active,
    optExpiresAt := row.expires_at }

/-- The scan of `validate_token` over the active rows: on the first bcrypt
match, return `none` if that row is expired (`now > expiresAt`), else the
User; otherwise keep scanning. -/
def validateScan (strToken : String) (now : Nat) : List TokenRow → Option User
  | [] => none
  | row :: rest =>
      if bcryptCheckpw strToken row.token_hash then
        match row.expires_at with
        | some e => if now > e then none else some (userOfRow row)
        | none => some (userOfRow row)
      else validateScan strToken now rest

/-- `TokenManager.validate_token` (`auth/token_manager.py` lines 112-156):
rejects secrets without the `pdf2md_` prefix, then scans
`SELECT * FROM tokens WHERE is_active = 1` for a bcrypt match. -/
def TokenStore.validate_token (st : TokenStore) (strToken : String) (now : Nat) :
    Option User :=
  if hasTokenFormat strToken then
    validateScan strToken now (st.rows.filter (fun r => r.is_active))
  else none

/-- `TokenManager.revoke_token` (`auth/token_manager.py` lines 218-232):
hard-deletes the row; `False` when the token id does not exist. -/
def TokenStore.revoke_token (st : TokenStore) (strTokenId : String) : TokenStore × Bool :=
  if st.rows.any (fun r => r.token_id == strTokenId) then
    (⟨st.rows.filter (fun r => !(r.token_id == strTokenId))⟩, true)
  else (st, false)

/-- `TokenManager.disable_token` (`auth/token_manager.py` lines 234-252):
sets `is_active = 0`; reversible. -/
def TokenStore.disable_token (st : TokenStore) (strTokenId : String) : TokenStore × Bool :=
  if st.rows.any (fun r => r.token_id == strTokenId) then
    (⟨st.rows.map (fun r =>
        if r.token_id == strTokenId then { r with is_active := false } else r)⟩, true)
  else (st, false)

/-- `TokenManager.enable_token` (`auth/token_manager.py` lines 254-272):
sets `is_active = 1`. -/
def TokenStore.enable_token (st : TokenStore) (strTokenId : String) : TokenStore × Bool :=
  if st.rows.any (fun r => r.token_id == strTokenId) then
    (⟨st.rows.map (fun r =>
        if r.token_id == strTokenId then { r with is_active := true } else r)⟩, true)
  else (st, false)

/-! ## Rate limiters (`src/pdf2md/auth/rate_limiter.py`) -/

/-- `self.dictRequests[key]` on a `defaultdict(list)`: the stored list, or
`[]` when the key is absent. -/
def lookupReqs (d : List (String × List Int)) (k : String) : List Int :=
  match d.find? (fun p => p.1 == k) with
  | some p => p.2
  | none => []

/-- `self.dictRequests[key] = v`: overwrite the entry, inserting it if
absent. -/
def setReqs (d : List (String × List Int)) (k : String) (v : List Int) :
    List (String × List Int) :=
  if d.any (fun p => p.1 == k) then
    d.map (fun p => if p.1 == k then (k, v) else p)
  else d ++ [(k, v)]

/-- `InMemoryRateLimiter` state: `dictRequests : token_id → timestamps`. -/
structure InMemoryRateLimiter where
  dictRequests : List (String × List Int)
deriving DecidableEq, Repr

/-- `InMemoryRateLimiter.check_rate_limit` (`auth/rate_limiter.py` lines
42-68): prunes timestamps at or before `now - 60`, stores the pruned list,
rejects if its length has reached the quota, otherwise records `now` and
admits. -/
def InMemoryRateLimiter.check_rate_limit (rl : InMemoryRateLimiter) (user : User)
    (now : Int) : InMemoryRateLimiter × Bool :=
  let windowStart := now - 60
  let pruned := (lookupReqs rl.dictRequests user.strTokenId).filter
    (fun ts => windowStart < ts)
  let d1 := setReqs rl.dictRequests user.strTokenId pruned
  if user.intRateLimit ≤ pruned.length then
    (⟨d1⟩, false)
  else
    (⟨setReqs d1 user.strTokenId (pruned ++ [now])⟩, true)

/-- Run a sequence of admission checks for one user at the given times,
returning the final limiter state and the list of decisions. -/
def InMemoryRateLimiter.runChecks (rl : InMemoryRateLimiter) (user : User) :
    List Int → InMemoryRateLimiter × List Bool
  | [] => (rl, [])
  | t :: ts =>
      let step := rl.check_rate_limit user t
      let rest := step.1.runChecks user ts
      (rest.1, step.2 :: rest.2)

/-- Redis counters of the shared variant, keyed by
`rate_limit:{token_id}:{window_epoch}`; the key is modelled structurally as
the `(token_id, window_epoch)` pair (token ids are UUIDs, so the string key
determines the pair). Absent keys count as 0. -/
def lookupCounter (c : List ((String × Nat) × Nat)) (k : String × Nat) : Nat :=
  match c.find? (fun p => p.1 == k) with
  | some p => p.2
  | none => 0

/-- `INCR`-style overwrite of a counter. -/
def setCounter (c : List ((String × Nat) × Nat)) (k : String × Nat) (v : Nat) :
    List ((String × Nat) × Nat) :=
  if c.any (fun p => p.1 == k) then
    c.map (fun p => if p.1 == k then (k, v) else p)
  else c ++ [(k, v)]

/-- `RedisRateLimiter` state: fail mode (`"open"` or `"closed"`), the
`_boolRedisAvailable` flag, and the shared counters. The per-key 60-second
`EXPIRE` is subsumed by the window epoch in the key: a counter is only ever
read through the current window's key. -/
structure RedisRateLimiter where
  strFailMode : String
  boolRedisAvailable : Bool
  counters : List ((String × Nat) × Nat)
deriving DecidableEq, Repr

/-- `RedisRateLimiter.connect` (`auth/rate_limiter.py` lines 94-110):
`connOk` is whether the `ping` succeeds. On failure the availability flag is
cleared and, in `"closed"` mode, the exception is re-raised (second component
`true`). -/
def RedisRateLimiter.connect (rl : RedisRateLimiter) (connOk : Bool) :
    RedisRateLimiter × Bool :=
  if connOk then ({ rl with boolRedisAvailable := true }, false)
  else
    ({ rl with boolRedisAvailable := false },
     rl.strFailMode == "closed")

/-- `RedisRateLimiter.check_rate_limit` (`auth/rate_limiter.py` lines
117-168): when the backend is unavailable, or the Redis call raises
(`opOk = false`, which also clears the availability flag), answer according
to the fail mode; otherwise atomically increment the window-keyed counter
and admit iff the post-increment count is within quota. -/
def RedisRateLimiter.check_rate_limit (rl : RedisRateLimiter) (user : User)
    (now : Nat) (opOk : Bool) : RedisRateLimiter × Bool :=
  if !rl.boolRedisAvailable then
    (rl, rl.strFailMode == "open")
  else if !opOk then
    ({ rl with boolRedisAvailable := false }, rl.strFailMode == "open")
  else
    let intWindowStart := now / 60
    let key := (user.strTokenId, intWindowStart)
    let intCurrentCount := lookupCounter rl.counters key + 1
    ({ rl with counters := setCounter rl.counters key intCurrentCount },
     intCurrentCount ≤ user.intRateLimit)

/-- Run a sequence of admission checks on the shared variant (all Redis
calls succeeding). -/
def RedisRateLimiter.runChecks (rl : RedisRateLimiter) (user : User) :
    List Nat → RedisRateLimiter × List Bool
  | [] => (rl, [])
  | t :: ts =>
      let step := rl.check_rate_limit user t true
      let rest := step.1.runChecks user ts
      (rest.1, step.2 :: rest.2)

/-! ## Queue lemmas -/

theorem applyStatus_strJobId (strJobId : String) (status : JobStatus)
    (rp em : Option String) (now : Nat) (j : Job) :
    (applyStatus strJobId status rp em now j).strJobId = j.strJobId := by
  unfold applyStatus
  repeat' split
  all_goals rfl

theorem find?_map_applyStatus (l : List Job) (strJobId tid : String) (status : JobStatus)
    (rp em : Option String) (now : Nat) :
    (l.map (applyStatus strJobId status rp em now)).find? (fun j => j.strJobId == tid)
      = (l.find? (fun j => j.strJobId == tid)).map (applyStatus strJobId status rp em now) := by
  induction l with
  | nil => rfl
  | cons a t ih =>
      simp only [List.map_cons]
      by_cases h : (a.strJobId == tid) = true
      · rw [List.find?_cons_of_pos (p := fun (k : Job) => k.strJobId == tid) _
              (by simpa [applyStatus_strJobId] using h),
            List.find?_cons_of_pos (p := fun (k : Job) => k.strJobId == tid) _ h]
        rfl
      · rw [List.find?_cons_of_neg (p := fun (k : Job) => k.strJobId == tid) _
              (by simpa [applyStatus_strJobId] using h),
            List.find?_cons_of_neg (p := fun (k : Job) => k.strJobId == tid) _ h, ih]

theorem get_job_update_job_status (q : JobQueue) (strJobId tid : String) (status : JobStatus)
    (rp em : Option String) (now : Nat) (j : Job) (h : q.get_job strJobId = some j) :
    (q.update_job_status strJobId status rp em now).1.get_job tid
      = (q.get_job tid).map (applyStatus strJobId status rp em now) := by
  simp only [JobQueue.update_job_status, h]
  exact find?_map_applyStatus q.jobs strJobId tid status rp em now

theorem get_job_beq (q : JobQueue) (strJobId : String) (j : Job)
    (h : q.get_job strJobId = some j) : (j.strJobId == strJobId) = true := by
  have h' : q.jobs.find? (fun k => k.strJobId == strJobId) = some j := h
  simpa using List.find?_some h'

theorem applyStatus_status_self (strJobId : String) (status : JobStatus)
    (rp em : Option String) (now : Nat) (j : Job) (h : (j.strJobId == strJobId) = true) :
    (applyStatus strJobId status rp em now j).status = status := by
  cases status <;> simp [applyStatus, h]

theorem applyStatus_self_RUNNING (strJobId : String) (rp em : Option String) (now : Nat)
    (j : Job) (h : (j.strJobId == strJobId) = true) :
    applyStatus strJobId JobStatus.RUNNING rp em now j
      = { j with status := JobStatus.RUNNING, optStartedAt := some now } := by
  simp [applyStatus, h]

theorem applyStatus_self_terminal (strJobId : String) (status : JobStatus)
    (rp em : Option String) (now : Nat) (j : Job)
    (h : (j.strJobId == strJobId) = true) (hs : status.isTerminal = true) :
    applyStatus strJobId status rp em now j
      = { j with status := status, optCompletedAt := some now,
                 optResultPath := rp, optErrorMessage := em } := by
  cases status <;> simp_all [applyStatus, JobStatus.isTerminal]

theorem cancel_job_of_terminal (q : JobQueue) (strJobId : String) (j : Job) (now : Nat)
    (h : q.get_job strJobId = some j) (hs : j.status.isTerminal = true) :
    q.cancel_job strJobId now = (q, false) := by
  cases hj : j.status <;>
    simp_all [JobQueue.cancel_job, JobStatus.isTerminal, h]

/-- **C1** (as stated, refuted): a job in terminal status COMPLETED is moved
back to the non-terminal status PENDING by a single `update_job_status` call,
which reports success — the queue layer performs no transition validation, so
status transitions through `update_job_status` are not monotonic. -/
theorem C1_counterexample :
    ((JobQueue.update_job_status
        ⟨[⟨"j1", "u", "p.pdf", JobStatus.COMPLETED, some "r.md", none, 0, some 1, some 2,
           false, none, "{}"⟩]⟩
        "j1" JobStatus.PENDING none none 9).2 = true) ∧
    (((JobQueue.update_job_status
        ⟨[⟨"j1", "u", "p.pdf", JobStatus.COMPLETED, some "r.md", none, 0, some 1, some 2,
           false, none, "{}"⟩]⟩
        "j1" JobStatus.PENDING none none 9).1.get_job "j1").map Job.status
      = some JobStatus.PENDING) := by
  decide

/-- **C1** (amended): `update_job_status` applies any requested status
unconditionally to an existing job — including moving a terminal job back to
a non-terminal status — so monotonicity is not enforced by `update_job_status`
itself; the terminal guard exists only in `cancel_job`, which returns `false`
and leaves the queue unchanged on a terminal job. -/
theorem C1_update_unconditional_cancel_guarded (q : JobQueue) (strJobId : String) (j : Job)
    (status : JobStatus) (rp em : Option String) (now : Nat)
    (h : q.get_job strJobId = some j) :
    (((q.update_job_status strJobId status rp em now).1.get_job strJobId).map Job.status
        = some status) ∧
    (j.status.isTerminal = true → q.cancel_job strJobId now = (q, false)) := by
  refine ⟨?_, fun hs => cancel_job_of_terminal q strJobId j now h hs⟩
  rw [get_job_update_job_status q strJobId strJobId status rp em now j h, h]
  simp [applyStatus_status_self strJobId status rp em now j (get_job_beq q strJobId j h)]

/-- A sample COMPLETED (terminal) job and its one-job queue. -/
def jobCompletedEx : Job :=
  ⟨"j1", "u", "p.pdf", JobStatus.COMPLETED, some "r.md", none, 0, some 1, some 2,
   false, none, "{}"⟩

/-- Queue holding only `jobCompletedEx`. -/
def qCompletedEx : JobQueue := ⟨[jobCompletedEx]⟩

/-- A sample PENDING job and its one-job queue. -/
def jobPendingEx : Job :=
  ⟨"j2", "u", "p.pdf", JobStatus.PENDING, none, none, 0, none, none, false, none, "{}"⟩

/-- Queue holding only `jobPendingEx`. -/
def qPendingEx : JobQueue := ⟨[jobPendingEx]⟩

/-- Witness for C1's amended theorem at a concrete one-job queue. -/
theorem C1_update_unconditional_cancel_guarded_witness :
    (((qCompletedEx.update_job_status "j1" JobStatus.PENDING none none 9).1.get_job
        "j1").map Job.status = some JobStatus.PENDING) ∧
    (qCompletedEx.cancel_job "j1" 9 = (qCompletedEx, false)) :=
  ⟨(C1_update_unconditional_cancel_guarded qCompletedEx "j1" jobCompletedEx
      JobStatus.PENDING none none 9 (by decide)).1,
   (C1_update_unconditional_cancel_guarded qCompletedEx "j1" jobCompletedEx
      JobStatus.PENDING none none 9 (by decide)).2 (by decide)⟩

/-- **C5**: `cancel_job` returns `true` and sets status CANCELLED exactly when
the job exists with current status PENDING or RUNNING; on a terminal job or a
missing job it returns `false` without error and leaves the queue (hence the
job's status) unchanged. -/
theorem C5_cancel_job_spec (q : JobQueue) (strJobId : String) (now : Nat) :
    (q.get_job strJobId = none → q.cancel_job strJobId now = (q, false)) ∧
    (∀ j, q.get_job strJobId = some j →
      ((j.status = JobStatus.PENDING ∨ j.status = JobStatus.RUNNING) →
         (q.cancel_job strJobId now).2 = true ∧
         (((q.cancel_job strJobId now).1.get_job strJobId).map Job.status
            = some JobStatus.CANCELLED)) ∧
      (j.status.isTerminal = true → q.cancel_job strJobId now = (q, false))) := by
  refine ⟨fun h => by simp [JobQueue.cancel_job, h], fun j hj => ⟨fun hpr => ?_, ?_⟩⟩
  · have hcond : (j.status == JobStatus.PENDING || j.status == JobStatus.RUNNING) = true := by
      rcases hpr with h1 | h1 <;> simp [h1]
    have hc : q.cancel_job strJobId now
        = ((q.update_job_status strJobId JobStatus.CANCELLED none none now).1, true) := by
      simp [JobQueue.cancel_job, hj, hcond]
    refine ⟨by rw [hc], ?_⟩
    rw [hc]
    rw [get_job_update_job_status q strJobId strJobId JobStatus.CANCELLED none none now j hj, hj]
    simp [applyStatus_status_self strJobId JobStatus.CANCELLED none none now j
      (get_job_beq q strJobId j hj)]
  · exact fun hs => cancel_job_of_terminal q strJobId j now hj hs

/-- Witness for C5 at a concrete queue: cancelling a PENDING job succeeds and
cancelling a COMPLETED job is a no-op returning `false`. -/
theorem C5_cancel_job_spec_witness :
    ((qPendingEx.cancel_job "j2" 5).2 = true) ∧
    (qCompletedEx.cancel_job "j1" 5 = (qCompletedEx, false)) :=
  ⟨(((C5_cancel_job_spec qPendingEx "j2" 5).2 jobPendingEx (by decide)).1
      (Or.inl (by decide))).1,
   ((C5_cancel_job_spec qCompletedEx "j1" 5).2 jobCompletedEx (by decide)).2 (by decide)⟩

theorem get_job_update_running (q : JobQueue) (sid : String) (j : Job)
    (rp em : Option String) (now : Nat) (h : q.get_job sid = some j) :
    (q.update_job_status sid JobStatus.RUNNING rp em now).1.get_job sid
      = some { j with status := JobStatus.RUNNING, optStartedAt := some now } := by
  rw [get_job_update_job_status q sid sid JobStatus.RUNNING rp em now j h, h]
  simp [applyStatus_self_RUNNING sid rp em now j (get_job_beq q sid j h)]

theorem get_job_update_terminal (q : JobQueue) (sid : String) (j : Job) (status : JobStatus)
    (rp em : Option String) (now : Nat) (h : q.get_job sid = some j)
    (hs : status.isTerminal = true) :
    (q.update_job_status sid status rp em now).1.get_job sid
      = some { j with status := status, optCompletedAt := some now,
                      optResultPath := rp, optErrorMessage := em } := by
  rw [get_job_update_job_status q sid sid status rp em now j h, h]
  simp [applyStatus_self_terminal sid status rp em now j (get_job_beq q sid j h) hs]

theorem idLoopAux_ok (q : JobQueue) (ids : Nat → String) :
    ∀ fuel attempts cur jid, q.idLoopAux ids fuel attempts cur = Except.ok jid →
      q.get_job jid = none := by
  intro fuel
  induction fuel with
  | zero =>
      intro _ _ _ h
      exact absurd h (by simp [JobQueue.idLoopAux])
  | succ n ih =>
      intro attempts cur jid h
      unfold JobQueue.idLoopAux at h
      cases hg : q.get_job cur with
      | none => rw [hg] at h; cases h; exact hg
      | some _ => rw [hg] at h; exact ih _ _ _ h

/-- **C9**: a freshly created job is PENDING with no start or completion
timestamp (and `created_at = now`); `update_job_status` to RUNNING sets a
start timestamp and leaves the completion timestamp unchanged (hence unset
for a fresh job); `update_job_status` to a terminal status sets a completion
timestamp and records the supplied result path and error message. -/
theorem C9_job_timestamps (q : JobQueue) :
    (∀ owner pdf opts ids now q1 jid,
        q.create_job owner pdf opts ids now = Except.ok (q1, jid) →
        ∃ j, q1.get_job jid = some j ∧ j.status = JobStatus.PENDING ∧
          j.optStartedAt = none ∧ j.optCompletedAt = none ∧ j.datetimeCreatedAt = now) ∧
    (∀ sid j rp em now1, q.get_job sid = some j →
        ∃ j1, (q.update_job_status sid JobStatus.RUNNING rp em now1).1.get_job sid
            = some j1 ∧ j1.status = JobStatus.RUNNING ∧ j1.optStartedAt = some now1 ∧
          j1.optCompletedAt = j.optCompletedAt) ∧
    (∀ sid j status rp em now2, q.get_job sid = some j → status.isTerminal = true →
        ∃ j2, (q.update_job_status sid status rp em now2).1.get_job sid = some j2 ∧
          j2.status = status ∧ j2.optCompletedAt = some now2 ∧
          j2.optResultPath = rp ∧ j2.optErrorMessage = em) := by
  refine ⟨?_, ?_, ?_⟩
  · intro owner pdf opts ids now q1 jid h
    unfold JobQueue.create_job at h
    cases hL : q.idLoop ids with
    | error e => rw [hL] at h; simp at h
    | ok jid0 =>
        rw [hL] at h
        have hfresh : q.get_job jid0 = none := idLoopAux_ok q ids 10 0 (ids 0) jid0 hL
        rw [Except.ok.injEq, Prod.mk.injEq] at h
        obtain ⟨hq1, hjid⟩ := h
        subst hq1
        subst hjid
        refine ⟨{ strJobId := jid0, strOwnerUserId := owner, strPdfPath := pdf,
                  status := JobStatus.PENDING, optResultPath := none,
                  optErrorMessage := none, datetimeCreatedAt := now, optStartedAt := none,
                  optCompletedAt := none, boolThrottled := false, optThrottledBy := none,
                  strOptions := opts }, ?_, rfl, rfl, rfl, rfl⟩
        have hfind : q.jobs.find? (fun k => k.strJobId == jid0) = none := hfresh
        simp [JobQueue.get_job, List.find?_append, hfind, List.find?]
  · intro sid j rp em now1 hj
    exact ⟨_, get_job_update_running q sid j rp em now1 hj, rfl, rfl, rfl⟩
  · intro sid j status rp em now2 hj hs
    exact ⟨_, get_job_update_terminal q sid j status rp em now2 hj hs, rfl, rfl, rfl, rfl⟩

/-- Witness for C9: create a job in an empty queue, move it to RUNNING, then
to COMPLETED, checking the recorded statuses and timestamps. -/
theorem C9_job_timestamps_witness :
    (∃ j, (JobQueue.get_job ⟨[jobPendingEx]⟩ "j2" = some j) ∧ j.status = JobStatus.PENDING ∧
      j.optStartedAt = none ∧ j.optCompletedAt = none ∧ j.datetimeCreatedAt = 0) ∧
    (∃ j1, (JobQueue.update_job_status qPendingEx "j2" JobStatus.RUNNING none none 3).1.get_job
        "j2" = some j1 ∧ j1.status = JobStatus.RUNNING ∧ j1.optStartedAt = some 3 ∧
      j1.optCompletedAt = jobPendingEx.optCompletedAt) ∧
    (∃ j2, (JobQueue.update_job_status qPendingEx "j2" JobStatus.COMPLETED (some "out.md")
        none 7).1.get_job "j2" = some j2 ∧ j2.status = JobStatus.COMPLETED ∧
      j2.optCompletedAt = some 7 ∧ j2.optResultPath = some "out.md" ∧
      j2.optErrorMessage = none) := by
  refine ⟨?_, ?_, ?_⟩
  · obtain ⟨j, hj, h1, h2, h3, h4⟩ :=
      (C9_job_timestamps ⟨[]⟩).1 "u" "p.pdf" "{}" (fun _ => "j2") 0 ⟨[jobPendingEx]⟩ "j2"
        (by rfl)
    exact ⟨j, hj, h1, h2, h3, h4⟩
  · exact (C9_job_timestamps qPendingEx).2.1 "j2" jobPendingEx none none 3 (by decide)
  · exact (C9_job_timestamps qPendingEx).2.2 "j2" jobPendingEx JobStatus.COMPLETED
      (some "out.md") none 7 (by decide) (by decide)

/-- **C4**: any failure during extraction (`conv`) or result persistence
(`persist`) is caught by `JobWorker._process_job`: the job is transitioned to
FAILED with the captured error text as its error message. The embedding of
`_process_job` is a total function into `JobQueue` — it returns a queue in
every case rather than propagating the failure, so the worker neither
crashes nor surfaces the error synchronously to the submitter. -/
theorem C4_worker_catches_failures (q : JobQueue) (sid : String) (j : Job)
    (conv persist : String → String → Except String String) (now : Nat) (e : String)
    (h : q.get_job sid = some j) :
    (conv j.strPdfPath j.strOptions = Except.error e →
        ∃ j1, (JobWorker.process_job q sid conv persist now).get_job sid = some j1 ∧
          j1.status = JobStatus.FAILED ∧ j1.optErrorMessage = some e) ∧
    (∀ md, conv j.strPdfPath j.strOptions = Except.ok md →
        persist sid md = Except.error e →
        ∃ j1, (JobWorker.process_job q sid conv persist now).get_job sid = some j1 ∧
          j1.status = JobStatus.FAILED ∧ j1.optErrorMessage = some e) := by
  have hq1 : ((q.update_job_status sid JobStatus.RUNNING none none now).1).get_job sid
      = some { j with status := JobStatus.RUNNING, optStartedAt := some now } :=
    get_job_update_running q sid j none none now h
  constructor
  · intro hconv
    have hp : JobWorker.process_job q sid conv persist now
        = ((q.update_job_status sid JobStatus.RUNNING none none now).1.update_job_status
            sid JobStatus.FAILED none (some e) now).1 := by
      simp [JobWorker.process_job, h, hconv]
    rw [hp]
    exact ⟨_, get_job_update_terminal _ sid _ JobStatus.FAILED none (some e) now hq1 rfl,
      rfl, rfl⟩
  · intro md hconv hpers
    have hp : JobWorker.process_job q sid conv persist now
        = ((q.update_job_status sid JobStatus.RUNNING none none now).1.update_job_status
            sid JobStatus.FAILED none (some e) now).1 := by
      simp [JobWorker.process_job, h, hconv, hpers]
    rw [hp]
    exact ⟨_, get_job_update_terminal _ sid _ JobStatus.FAILED none (some e) now hq1 rfl,
      rfl, rfl⟩

/-- Witness for C4: a conversion failure on a concrete PENDING job marks it
FAILED with the error text. -/
theorem C4_worker_catches_failures_witness :
    ∃ j1, (JobWorker.process_job qPendingEx "j2" (fun _ _ => Except.error "boom")
        (fun _ _ => Except.ok "out.md") 3).get_job "j2" = some j1 ∧
      j1.status = JobStatus.FAILED ∧ j1.optErrorMessage = some "boom" :=
  (C4_worker_catches_failures qPendingEx "j2" jobPendingEx
    (fun _ _ => Except.error "boom") (fun _ _ => Except.ok "out.md") 3 "boom"
    (by decide)).1 rfl

/-- **C2**: for every user and every permission, `check_permission` agrees
cell-for-cell with the §4.5 table (`specPermissionTable`), including the
negative cases — e.g. JOB_WRITER fails `view_all` and passes `grant_access`
while JOB_MANAGER passes `view_all` and fails `grant_access`. -/
theorem C2_check_permission_matches_table (u : User) (p : Permission) :
    check_permission u p = specPermissionTable u.role p := by
  cases u with
  | mk tid uid r lim act exp =>
      show (ROLE_PERMISSIONS r).contains p = specPermissionTable r p
      cases r <;> cases p <;> rfl

theorem idLoopAux_error (q : JobQueue) (ids : Nat → String) :
    ∀ fuel attempts,
      (∀ k, attempts ≤ k → k < attempts + fuel → (q.get_job (ids k)).isSome = true) →
      q.idLoopAux ids fuel attempts (ids attempts)
        = Except.error "Failed to generate unique job ID after 10 attempts" := by
  intro fuel
  induction fuel with
  | zero => intro attempts _; rfl
  | succ n ih =>
      intro attempts hall
      have h0 : (q.get_job (ids attempts)).isSome = true :=
        hall attempts (Nat.le_refl _) (by omega)
      unfold JobQueue.idLoopAux
      cases hg : q.get_job (ids attempts) with
      | none => rw [hg] at h0; simp at h0
      | some _ =>
          exact ih (attempts + 1) (fun k hk1 hk2 => hall k (by omega) (by omega))

/-- **C8**: `generate_job_id` always yields a 10-character string over the
62-character alphabet; a successful `create_job` returns an identifier that
did not exist before the call (so distinctness of all stored identifiers is
preserved, and N successful creations yield N distinct ids); and when every
candidate identifier collides with an existing job, `create_job` fails with
the `RuntimeError` text after its fixed bound of 10 attempts instead of
inserting a duplicate. -/
theorem C8_job_id_generation :
    (∀ choices : Nat → Fin 62, (generate_job_id choices 10).length = 10 ∧
       ∀ c ∈ (generate_job_id choices 10).data, c ∈ strAlphabet) ∧
    (∀ (q : JobQueue) (owner pdf opts : String) (ids : Nat → String) (now : Nat)
       (q1 : JobQueue) (jid : String),
       q.create_job owner pdf opts ids now = Except.ok (q1, jid) →
       q.get_job jid = none ∧ q1.get_job jid ≠ none ∧
       ((q.jobs.map Job.strJobId).Nodup → (q1.jobs.map Job.strJobId).Nodup)) ∧
    (∀ (q : JobQueue) (owner pdf opts : String) (ids : Nat → String) (now : Nat),
       (∀ k, k < 10 → (q.get_job (ids k)).isSome = true) →
       q.create_job owner pdf opts ids now
         = Except.error "Failed to generate unique job ID after 10 attempts") := by
  refine ⟨?_, ?_, ?_⟩
  · intro choices
    constructor
    · simp [generate_job_id, String.length]
    · intro c hc
      obtain ⟨i, _, rfl⟩ := List.mem_map.mp hc
      have hlt : (choices i).val < strAlphabet.length := (choices i).isLt
      rw [List.getD_eq_getElem strAlphabet 'a' hlt]
      exact List.getElem_mem hlt
  · intro q owner pdf opts ids now q1 jid h
    unfold JobQueue.create_job at h
    cases hL : q.idLoop ids with
    | error e => rw [hL] at h; simp at h
    | ok jid0 =>
        rw [hL] at h
        have hfresh : q.get_job jid0 = none := idLoopAux_ok q ids 10 0 (ids 0) jid0 hL
        rw [Except.ok.injEq, Prod.mk.injEq] at h
        obtain ⟨hq1, hjid⟩ := h
        subst hq1
        subst hjid
        have hfind : q.jobs.find? (fun k => k.strJobId == jid0) = none := hfresh
        refine ⟨hfresh, ?_, ?_⟩
        · simp [JobQueue.get_job, List.find?_append, hfind, List.find?]
        · intro hnd
          have hnotin : jid0 ∉ q.jobs.map Job.strJobId := by
            intro hmem
            obtain ⟨j, hj, hEq⟩ := List.mem_map.mp hmem
            have hne := List.find?_eq_none.mp hfind j hj
            exact hne (by simp [hEq])
          simp [List.map_append, List.nodup_append, hnd, hnotin, List.Disjoint]
          intro a ha hEq
          exact hnotin (List.mem_map.mpr ⟨a, ha, hEq⟩)
  · intro q owner pdf opts ids now hall
    have hL : q.idLoop ids
        = Except.error "Failed to generate unique job ID after 10 attempts" :=
      idLoopAux_error q ids 10 0 (fun k _ hk2 => hall k (by omega))
    unfold JobQueue.create_job
    rw [hL]

/-- The row inserted by the successful `create_job` of the C8 witness. -/
def jobFreshEx : Job :=
  ⟨"zz", "u", "p.pdf", JobStatus.PENDING, none, none, 0, none, none, false, none, "{}"⟩

/-- Witness for C8: a concrete generated id has the right shape; creating a
job with a fresh id in a one-job queue preserves identifier distinctness; and
creating with a permanently colliding id stream raises the error. -/
theorem C8_job_id_generation_witness :
    ((generate_job_id (fun _ => (⟨3, by omega⟩ : Fin 62)) 10).length = 10) ∧
    ('d' ∈ strAlphabet) ∧
    (qPendingEx.get_job "zz" = none ∧
     JobQueue.get_job ⟨qPendingEx.jobs ++ [jobFreshEx]⟩ "zz" ≠ none ∧
     ((⟨qPendingEx.jobs ++ [jobFreshEx]⟩ : JobQueue).jobs.map Job.strJobId).Nodup) ∧
    (qPendingEx.create_job "u" "p.pdf" "{}" (fun _ => "j2") 0
       = Except.error "Failed to generate unique job ID after 10 attempts") :=
  ⟨(C8_job_id_generation.1 (fun _ => (⟨3, by omega⟩ : Fin 62))).1,
   (C8_job_id_generation.1 (fun _ => (⟨3, by omega⟩ : Fin 62))).2 'd' (by decide),
   (fun h => ⟨h.1, h.2.1, h.2.2 (by decide)⟩)
     (C8_job_id_generation.2.1 qPendingEx "u" "p.pdf" "{}" (fun _ => "zz") 0
       ⟨qPendingEx.jobs ++ [jobFreshEx]⟩ "zz" (by rfl)),
   C8_job_id_generation.2.2 qPendingEx "u" "p.pdf" "{}" (fun _ => "j2") 0
     (fun k _ => (by decide : (qPendingEx.get_job "j2").isSome = true))⟩

theorem mem_insertByCreatedDesc (x j : Job) (l : List Job) :
    x ∈ insertByCreatedDesc j l ↔ x = j ∨ x ∈ l := by
  induction l with
  | nil => simp [insertByCreatedDesc]
  | cons k rest ih =>
      unfold insertByCreatedDesc
      by_cases hc : k.datetimeCreatedAt ≤ j.datetimeCreatedAt
      · simp [hc]
      · simp [hc, ih]
        tauto

theorem mem_sortByCreatedDesc (x : Job) (l : List Job) :
    x ∈ sortByCreatedDesc l ↔ x ∈ l := by
  induction l with
  | nil => simp [sortByCreatedDesc]
  | cons k rest ih =>
      simp [sortByCreatedDesc, mem_insertByCreatedDesc, ih]

theorem sortByCreatedDesc_head_max (l : List Job) (h : Job) (t : List Job)
    (hs : sortByCreatedDesc l = h :: t) :
    ∀ x ∈ l, x.datetimeCreatedAt ≤ h.datetimeCreatedAt := by
  induction l generalizing h t with
  | nil => simp [sortByCreatedDesc] at hs
  | cons a rest ih =>
      rw [sortByCreatedDesc] at hs
      cases hrest : sortByCreatedDesc rest with
      | nil =>
          rw [hrest] at hs
          unfold insertByCreatedDesc at hs
          obtain ⟨rfl, rfl⟩ : a = h ∧ ([] : List Job) = t := by
            constructor <;> injection hs
          intro x hx
          rcases List.mem_cons.mp hx with rfl | hx'
          · exact Nat.le_refl _
          · have : x ∈ sortByCreatedDesc rest := (mem_sortByCreatedDesc x rest).mpr hx'
            rw [hrest] at this
            simp at this
      | cons b t' =>
          rw [hrest] at hs
          unfold insertByCreatedDesc at hs
          by_cases hc : b.datetimeCreatedAt ≤ a.datetimeCreatedAt
          · rw [if_pos hc] at hs
            obtain rfl : a = h := by injection hs
            intro x hx
            rcases List.mem_cons.mp hx with rfl | hx'
            · exact Nat.le_refl _
            · exact Nat.le_trans (ih b t' hrest x hx') hc
          · rw [if_neg hc] at hs
            obtain rfl : b = h := by injection hs
            intro x hx
            rcases List.mem_cons.mp hx with rfl | hx'
            · exact Nat.le_of_lt (Nat.lt_of_not_le hc)
            · exact ih b t' hrest x hx'

/-- **C10**: in each poll cycle the worker looks only at the single
most-recently-created PENDING job (the queue listing orders by `created_at`
descending and the worker requests a page of size one): when `j` is the
strictly newest PENDING job, `_get_next_job` returns `j` if it is not
throttled and returns no job at all if it is throttled — even when older
non-throttled PENDING jobs exist in the queue. -/
theorem C10_worker_head_of_line (q : JobQueue) (j : Job)
    (hmem : j ∈ q.jobs) (hpend : j.status = JobStatus.PENDING)
    (hnewest : ∀ k ∈ q.jobs, k.status = JobStatus.PENDING → k ≠ j →
        k.datetimeCreatedAt < j.datetimeCreatedAt) :
    JobWorker.get_next_job q = if j.boolThrottled then none else some j := by
  have hjf : j ∈ q.jobs.filter (listJobsPred (some JobStatus.PENDING) none) :=
    List.mem_filter.mpr ⟨hmem, by simp [listJobsPred, hpend]⟩
  have hjs : j ∈ sortByCreatedDesc (q.jobs.filter (listJobsPred (some JobStatus.PENDING) none)) :=
    (mem_sortByCreatedDesc _ _).mpr hjf
  cases hs : sortByCreatedDesc (q.jobs.filter (listJobsPred (some JobStatus.PENDING) none)) with
  | nil => rw [hs] at hjs; simp at hjs
  | cons h t =>
      have hhf : h ∈ q.jobs.filter (listJobsPred (some JobStatus.PENDING) none) := by
        have : h ∈ sortByCreatedDesc
            (q.jobs.filter (listJobsPred (some JobStatus.PENDING) none)) := by
          rw [hs]; exact List.mem_cons_self h t
        exact (mem_sortByCreatedDesc _ _).mp this
      obtain ⟨hhmem, hhpred⟩ := List.mem_filter.mp hhf
      have hhpend : h.status = JobStatus.PENDING := by
        simpa [listJobsPred] using hhpred
      have hle : j.datetimeCreatedAt ≤ h.datetimeCreatedAt :=
        sortByCreatedDesc_head_max _ h t hs j hjf
      have hhj : h = j := by
        by_contra hne
        exact absurd hle (Nat.not_le.mpr (hnewest h hhmem hhpend hne))
      subst hhj
      simp [JobWorker.get_next_job, JobQueue.list_jobs, hs]

/-- A throttled newest PENDING job and an older unthrottled PENDING job. -/
def jobThrottledEx : Job :=
  ⟨"j3", "u", "p.pdf", JobStatus.PENDING, none, none, 10, none, none, true, some "admin", "{}"⟩

/-- Witness for C10: with the newest PENDING job throttled, the worker
selects no job even though an older unthrottled PENDING job exists. -/
theorem C10_worker_head_of_line_witness :
    JobWorker.get_next_job ⟨[jobPendingEx, jobThrottledEx]⟩ = none := by
  have h := C10_worker_head_of_line ⟨[jobPendingEx, jobThrottledEx]⟩ jobThrottledEx
    (by decide) (by decide)
    (fun k hk hks hne => by
      rcases List.mem_cons.mp hk with rfl | hk'
      · decide
      · rcases List.mem_cons.mp hk' with rfl | hk''
        · exact absurd rfl hne
        · simp at hk'')
  simpa using h

/-! ## Token manager lemmas -/

theorem listStartsWith_append (p rest : List Char) : listStartsWith p (p ++ rest) = true := by
  induction p with
  | nil => rfl
  | cons c cs ih => simp [listStartsWith, ih]

theorem hasTokenFormat_generate (raw : String) :
    hasTokenFormat (generate_token raw) = true := by
  unfold hasTokenFormat generate_token
  rw [String.data_append]
  exact listStartsWith_append _ _

theorem validateScan_nomatch (s : String) (now1 : Nat) (l : List TokenRow)
    (h : ∀ r ∈ l, bcryptCheckpw s r.token_hash = false) :
    validateScan s now1 l = none := by
  induction l with
  | nil => rfl
  | cons r rest ih =>
      unfold validateScan
      rw [h r (List.mem_cons_self r rest)]
      exact ih (fun r' hr' => h r' (List.mem_cons_of_mem r hr'))

theorem validateScan_append_nomatch (s : String) (now1 : Nat) (l1 l2 : List TokenRow)
    (h : ∀ r ∈ l1, bcryptCheckpw s r.token_hash = false) :
    validateScan s now1 (l1 ++ l2) = validateScan s now1 l2 := by
  induction l1 with
  | nil => rfl
  | cons r rest ih =>
      have hr := h r (List.mem_cons_self r rest)
      rw [List.cons_append]
      show validateScan s now1 (r :: (rest ++ l2)) = validateScan s now1 l2
      rw [validateScan, hr]
      simp only [Bool.false_eq_true, if_false]
      exact ih (fun r' hr' => h r' (List.mem_cons_of_mem r hr'))

theorem validate_token_nomatch (rows : List TokenRow) (s : String) (now1 : Nat)
    (h : ∀ r ∈ rows, bcryptCheckpw s r.token_hash = false) :
    TokenStore.validate_token ⟨rows⟩ s now1 = none := by
  unfold TokenStore.validate_token
  by_cases hf : hasTokenFormat s = true
  · rw [if_pos hf]
    exact validateScan_nomatch s now1 _ (fun r hr => h r (List.mem_filter.mp hr).1)
  · rw [if_neg hf]

theorem map_untouched_rows (rows : List TokenRow) (tid : String) (f : TokenRow → TokenRow)
    (h : ∀ r ∈ rows, (r.token_id == tid) = false) :
    rows.map (fun r => if r.token_id == tid then f r else r) = rows := by
  calc rows.map (fun r => if r.token_id == tid then f r else r)
      = rows.map id := List.map_congr_left (fun r hr => by rw [if_neg (by simp [h r hr])]; rfl)
    _ = rows := List.map_id rows

theorem validate_token_inactive_tail (rows : List TokenRow) (row : TokenRow) (s : String)
    (now1 : Nat) (hact : row.is_active = false)
    (h : ∀ r ∈ rows, bcryptCheckpw s r.token_hash = false) :
    TokenStore.validate_token ⟨rows ++ [row]⟩ s now1 = none := by
  unfold TokenStore.validate_token
  by_cases hf : hasTokenFormat s = true
  · rw [if_pos hf]
    show validateScan s now1 ((rows ++ [row]).filter (fun r => r.is_active)) = none
    rw [List.filter_append]
    have hrow : List.filter (fun r => r.is_active) [row] = [] := by simp [hact]
    rw [hrow, List.append_nil]
    exact validateScan_nomatch s now1 _ (fun r hr => h r (List.mem_filter.mp hr).1)
  · rw [if_neg hf]


theorem enable_after_disable_row (r : TokenRow) (h : r.is_active = true) :
    ({ ({ r with is_active := false }) with is_active := true } : TokenRow) = r := by
  cases r
  simp_all

theorem tokenRow_set_active_eq (r : TokenRow) (h : r.is_active = true) :
    ({ r with is_active := true } : TokenRow) = r := by
  cases r
  simp_all

/-- The row that `create_token` inserts for the given issuance parameters. -/
def issuedRow (uid : String) (role : Role) (optExpiresDays : Option Nat)
    (optCreatedBy : Option String) (optRateLimit : Option Nat)
    (tid raw salt : String) (now : Nat) : TokenRow :=
  { token_id := tid, token_hash := bcryptHashpw (generate_token raw) salt,
    user_id := uid, role := role, created_at := now,
    expires_at := optExpiresDays.map (fun d => now + d * 86400),
    is_active := true,
    rate_limit := (match optRateLimit with
                   | some n => n
                   | none => defaultRateLimit role),
    created_by := optCreatedBy }

theorem create_token_unfolded (st : TokenStore) (uid : String) (role : Role)
    (optExpiresDays : Option Nat) (optCreatedBy : Option String) (optRateLimit : Option Nat)
    (tid raw salt : String) (now : Nat) :
    st.create_token uid role optExpiresDays optCreatedBy optRateLimit tid raw salt now
      = (⟨st.rows ++ [issuedRow uid role optExpiresDays optCreatedBy optRateLimit
            tid raw salt now]⟩, tid, generate_token raw) := rfl

theorem validateScan_singleton_match (s : String) (now1 : Nat) (row : TokenRow)
    (hck : bcryptCheckpw s row.token_hash = true) :
    validateScan s now1 [row]
      = (match row.expires_at with
         | some e => if now1 > e then none else some (userOfRow row)
         | none => some (userOfRow row)) := by
  simp [validateScan, hck]

/-- **C3**: for a credential issued by `create_token` with secret
`generate_token raw` — assuming, as the 256-bit random secrets and UUID token
ids guarantee in practice, that the fresh secret matches no stored hash and
the fresh token id equals no stored id — `validate_token` immediately
afterwards returns exactly the Principal of the inserted row, whose role and
rate-limit quota are those issued; after `revoke_token` it returns none;
after `disable_token` it returns none, and `enable_token` restores the store
exactly (so validation behaves as freshly issued again); and once
`now > expiresAt`, `validate_token` returns none even though the bcrypt hash
matches. -/
theorem C3_credential_lifecycle (st : TokenStore) (uid : String) (role : Role)
    (dOpt : Option Nat) (cbOpt : Option String) (rlOpt : Option Nat)
    (tid raw salt : String) (now : Nat) (row : TokenRow) (st1 : TokenStore)
    (hrow : row = issuedRow uid role dOpt cbOpt rlOpt tid raw salt now)
    (hst1 : st1 = ⟨st.rows ++ [row]⟩)
    (hHash : ∀ r ∈ st.rows, bcryptCheckpw (generate_token raw) r.token_hash = false)
    (hTid : ∀ r ∈ st.rows, (r.token_id == tid) = false) :
    (st.create_token uid role dOpt cbOpt rlOpt tid raw salt now
       = (st1, tid, generate_token raw)) ∧
    ((userOfRow row).role = role ∧
     (userOfRow row).intRateLimit = rlOpt.getD (defaultRateLimit role)) ∧
    (∀ now1, (∀ d, dOpt = some d → now1 ≤ now + d * 86400) →
       st1.validate_token (generate_token raw) now1 = some (userOfRow row)) ∧
    ((st1.revoke_token tid).2 = true ∧
     ∀ now1, (st1.revoke_token tid).1.validate_token (generate_token raw) now1 = none) ∧
    ((st1.disable_token tid).2 = true ∧
     (∀ now1, (st1.disable_token tid).1.validate_token (generate_token raw) now1 = none) ∧
     ((st1.disable_token tid).1.enable_token tid).1 = st1) ∧
    (∀ now1 d, dOpt = some d → now + d * 86400 < now1 →
       st1.validate_token (generate_token raw) now1 = none) := by
  have hid : row.token_id = tid := by rw [hrow]; rfl
  have hact : row.is_active = true := by rw [hrow]; rfl
  have hhash : row.token_hash = bcryptHashpw (generate_token raw) salt := by rw [hrow]; rfl
  have hexp : row.expires_at = dOpt.map (fun d => now + d * 86400) := by rw [hrow]; rfl
  have hnomatchFiltered : ∀ r ∈ st.rows.filter (fun r => r.is_active),
      bcryptCheckpw (generate_token raw) r.token_hash = false :=
    fun r hr => hHash r (List.mem_filter.mp hr).1
  have hck : bcryptCheckpw (generate_token raw) row.token_hash = true := by
    rw [hhash]
    simp [bcryptCheckpw, bcryptHashpw]
  have hf1 : List.filter (fun r => r.is_active) [row] = [row] := by simp [hact]
  have hanyTrue : ((st.rows ++ [row]).any (fun r => r.token_id == tid)) = true := by
    rw [List.any_append]
    simp [hid]
  have hrevoke : st1.revoke_token tid = (⟨st.rows⟩, true) := by
    rw [hst1]
    unfold TokenStore.revoke_token
    rw [if_pos hanyTrue]
    have h1 : st.rows.filter (fun r => !(r.token_id == tid)) = st.rows :=
      List.filter_eq_self.mpr (fun r hr => by simp [hTid r hr])
    have h2 : List.filter (fun r => !(r.token_id == tid)) [row] = [] := by simp [hid]
    rw [List.filter_append, h1, h2, List.append_nil]
  have hdisable : st1.disable_token tid
      = (⟨st.rows ++ [{ row with is_active := false }]⟩, true) := by
    rw [hst1]
    unfold TokenStore.disable_token
    rw [if_pos hanyTrue]
    rw [List.map_append, map_untouched_rows st.rows tid _ hTid]
    simp [hid]
  refine ⟨?_, ⟨?_, ?_⟩, ?_, ⟨?_, ?_⟩, ⟨?_, ?_, ?_⟩, ?_⟩
  · rw [create_token_unfolded, hst1, hrow]
  · rw [hrow]; rfl
  · rw [hrow]; cases rlOpt <;> rfl
  · intro now1 hexpOk
    rw [hst1]
    unfold TokenStore.validate_token
    rw [if_pos (hasTokenFormat_generate raw)]
    show validateScan (generate_token raw) now1
        ((st.rows ++ [row]).filter (fun r => r.is_active)) = some (userOfRow row)
    rw [List.filter_append, hf1, validateScan_append_nomatch _ _ _ _ hnomatchFiltered,
        validateScan_singleton_match _ _ _ hck, hexp]
    cases hdays : dOpt with
    | none => simp
    | some d =>
        have hle : now1 ≤ now + d * 86400 := hexpOk d hdays
        simp [Nat.not_lt.mpr hle]
  · rw [hrevoke]
  · intro now1
    rw [hrevoke]
    exact validate_token_nomatch st.rows _ now1 hHash
  · rw [hdisable]
  · intro now1
    rw [hdisable]
    exact validate_token_inactive_tail st.rows _ _ now1 rfl hHash
  · rw [hdisable]
    show (TokenStore.enable_token ⟨st.rows ++ [{ row with is_active := false }]⟩ tid).1 = st1
    unfold TokenStore.enable_token
    have hany2 : ((st.rows ++ [{ row with is_active := false }]).any
        (fun r => r.token_id == tid)) = true := by
      rw [List.any_append]
      simp [hid]
    rw [if_pos hany2, List.map_append, map_untouched_rows st.rows tid _ hTid, hst1]
    simp [hid, enable_after_disable_row row hact]
    rw [← hid]
    exact tokenRow_set_active_eq row hact
  · intro now1 d hdays hlt
    rw [hst1]
    unfold TokenStore.validate_token
    rw [if_pos (hasTokenFormat_generate raw)]
    show validateScan (generate_token raw) now1
        ((st.rows ++ [row]).filter (fun r => r.is_active)) = none
    rw [List.filter_append, hf1, validateScan_append_nomatch _ _ _ _ hnomatchFiltered,
        validateScan_singleton_match _ _ _ hck, hexp, hdays]
    simp [hlt]

/-- Token store holding exactly one concretely issued credential. -/
def tokenStoreEx : TokenStore :=
  ⟨[issuedRow "alice" Role.JOB_WRITER (some 1) none none "tid1" "r" "s" 0]⟩

/-- Witness for C3 on a concrete issuance (role JOB_WRITER, 1-day expiry):
validation succeeds before expiry, fails after revoke, fails while disabled,
is restored by enable, and fails after the expiry instant. -/
theorem C3_credential_lifecycle_witness :
    (tokenStoreEx.validate_token (generate_token "r") 5
       = some (userOfRow (issuedRow "alice" Role.JOB_WRITER (some 1) none none
           "tid1" "r" "s" 0))) ∧
    ((tokenStoreEx.revoke_token "tid1").1.validate_token (generate_token "r") 5 = none) ∧
    ((tokenStoreEx.disable_token "tid1").1.validate_token (generate_token "r") 5 = none) ∧
    (((tokenStoreEx.disable_token "tid1").1.enable_token "tid1").1 = tokenStoreEx) ∧
    (tokenStoreEx.validate_token (generate_token "r") 86401 = none) :=
  have h := C3_credential_lifecycle ⟨[]⟩ "alice" Role.JOB_WRITER (some 1) none none
    "tid1" "r" "s" 0
    (issuedRow "alice" Role.JOB_WRITER (some 1) none none "tid1" "r" "s" 0)
    tokenStoreEx rfl rfl (by simp) (by simp)
  ⟨h.2.2.1 5 (fun d hd => by cases hd; omega),
   h.2.2.2.1.2 5,
   h.2.2.2.2.1.2.1 5,
   h.2.2.2.2.1.2.2,
   h.2.2.2.2.2 86401 1 rfl (by omega)⟩

/-! ## Rate limiter lemmas -/

theorem find?_fst_map_set {α β : Type} [BEq α] [LawfulBEq α]
    (d : List (α × β)) (k : α) (v : β) (hany : d.any (fun p => p.1 == k) = true) :
    (d.map (fun p => if p.1 == k then (k, v) else p)).find? (fun p => p.1 == k)
      = some (k, v) := by
  induction d with
  | nil => simp at hany
  | cons a t ih =>
      rw [List.map_cons]
      by_cases ha : (a.1 == k) = true
      · rw [if_pos ha]
        exact List.find?_cons_of_pos (p := fun (q : α × β) => q.1 == k) _ (by simp)
      · rw [if_neg ha,
            List.find?_cons_of_neg (p := fun (q : α × β) => q.1 == k) _ (by simpa using ha)]
        refine ih ?_
        rw [List.any_cons] at hany
        simpa [ha] using hany

theorem find?_fst_map_set_ne {α β : Type} [BEq α] [LawfulBEq α]
    (d : List (α × β)) (k k' : α) (v : β) (hne : (k' == k) = false) :
    (d.map (fun p => if p.1 == k then (k, v) else p)).find? (fun p => p.1 == k')
      = d.find? (fun p => p.1 == k') := by
  have hne' : (k == k') = false :=
    beq_eq_false_iff_ne.mpr (Ne.symm (beq_eq_false_iff_ne.mp hne))
  induction d with
  | nil => rfl
  | cons a t ih =>
      rw [List.map_cons]
      by_cases ha : (a.1 == k) = true
      · have hak : a.1 = k := by simpa using ha
        have hfail : (a.1 == k') = false := by rw [hak]; exact hne'
        rw [if_pos ha,
            List.find?_cons_of_neg (p := fun (q : α × β) => q.1 == k') _ (by simp [hne']),
            List.find?_cons_of_neg (p := fun (q : α × β) => q.1 == k') _ (by simp [hfail]),
            ih]
      · rw [if_neg ha]
        by_cases hk' : (a.1 == k') = true
        · rw [List.find?_cons_of_pos (p := fun (q : α × β) => q.1 == k') _ hk',
              List.find?_cons_of_pos (p := fun (q : α × β) => q.1 == k') _ hk']
        · rw [List.find?_cons_of_neg (p := fun (q : α × β) => q.1 == k') _ (by simpa using hk'),
              List.find?_cons_of_neg (p := fun (q : α × β) => q.1 == k') _ (by simpa using hk'),
              ih]

theorem lookupReqs_set_self (d : List (String × List Int)) (k : String) (v : List Int) :
    lookupReqs (setReqs d k v) k = v := by
  unfold lookupReqs setReqs
  by_cases h : d.any (fun p => p.1 == k) = true
  · rw [if_pos h, find?_fst_map_set d k v h]
  · have hanyF : d.any (fun p => p.1 == k) = false := Bool.eq_false_iff.mpr h
    have hnone : d.find? (fun p => p.1 == k) = none :=
      List.find?_eq_none.mpr (List.any_eq_false.mp hanyF)
    rw [if_neg h, List.find?_append, hnone]
    simp [List.find?]

theorem lookupReqs_set_ne (d : List (String × List Int)) (k k' : String) (v : List Int)
    (hne : (k' == k) = false) :
    lookupReqs (setReqs d k v) k' = lookupReqs d k' := by
  have hne' : (k == k') = false :=
    beq_eq_false_iff_ne.mpr (Ne.symm (beq_eq_false_iff_ne.mp hne))
  unfold lookupReqs setReqs
  by_cases h : d.any (fun p => p.1 == k) = true
  · rw [if_pos h, find?_fst_map_set_ne d k k' v hne]
  · rw [if_neg h, List.find?_append]
    cases hfd : d.find? (fun p => p.1 == k') with
    | some p => simp
    | none => simp [List.find?, hne']

theorem lookupCounter_set_self (c : List ((String × Nat) × Nat)) (k : String × Nat) (v : Nat) :
    lookupCounter (setCounter c k v) k = v := by
  unfold lookupCounter setCounter
  by_cases h : c.any (fun p => p.1 == k) = true
  · rw [if_pos h, find?_fst_map_set c k v h]
  · have hanyF : c.any (fun p => p.1 == k) = false := Bool.eq_false_iff.mpr h
    have hnone : c.find? (fun p => p.1 == k) = none :=
      List.find?_eq_none.mpr (List.any_eq_false.mp hanyF)
    rw [if_neg h, List.find?_append, hnone]
    simp [List.find?]

theorem lookupCounter_set_ne (c : List ((String × Nat) × Nat)) (k k' : String × Nat) (v : Nat)
    (hne : (k' == k) = false) :
    lookupCounter (setCounter c k v) k' = lookupCounter c k' := by
  have hne' : (k == k') = false :=
    beq_eq_false_iff_ne.mpr (Ne.symm (beq_eq_false_iff_ne.mp hne))
  unfold lookupCounter setCounter
  by_cases h : c.any (fun p => p.1 == k) = true
  · rw [if_pos h, find?_fst_map_set_ne c k k' v hne]
  · rw [if_neg h, List.find?_append]
    cases hfd : c.find? (fun p => p.1 == k') with
    | some p => simp
    | none => simp [List.find?, hne']

/-- The admission pattern of a fixed-window limiter: with `intL` requests
already counted in the window and quota `intQ`, the `i`-th further request is
admitted iff `intL + i < intQ`. -/
def expectedDecisions (intL intQ n : Nat) : List Bool :=
  (List.range n).map (fun i => decide (intL + i < intQ))

theorem expectedDecisions_succ (intL intQ n : Nat) :
    expectedDecisions intL intQ (n + 1)
      = decide (intL < intQ) :: expectedDecisions (intL + 1) intQ n := by
  unfold expectedDecisions
  rw [List.range_succ_eq_map, List.map_cons, List.map_map]
  refine List.cons_eq_cons.mpr ⟨by simp, ?_⟩
  exact List.map_congr_left (fun i _ => decide_eq_decide.mpr (by omega))

theorem expectedDecisions_ge (intL intQ n : Nat) (h : intQ ≤ intL) :
    expectedDecisions intL intQ n = List.replicate n false := by
  refine List.eq_replicate_iff.mpr ⟨by simp [expectedDecisions], ?_⟩
  intro b hb
  obtain ⟨i, _, rfl⟩ := List.mem_map.mp hb
  simp
  omega

theorem runChecks_formula (u : User) (all : List Int)
    (H : ∀ a ∈ all, ∀ b ∈ all, a - 60 < b) :
    ∀ (ts : List Int), (∀ t ∈ ts, t ∈ all) →
    ∀ (rl : InMemoryRateLimiter) (l : List Int),
      (∀ x ∈ l, x ∈ all) →
      lookupReqs rl.dictRequests u.strTokenId = l →
      (rl.runChecks u ts).2 = expectedDecisions l.length u.intRateLimit ts.length := by
  intro ts
  induction ts with
  | nil => intro _ rl l _ _; rfl
  | cons t ts ih =>
      intro hts rl l hl hlook
      have hmem_t : t ∈ all := hts t (List.mem_cons_self t ts)
      have hpruned : l.filter (fun x => decide (t - 60 < x)) = l :=
        List.filter_eq_self.mpr
          (fun x hx => decide_eq_true (H t hmem_t x (hl x hx)))
      have hcheck : rl.check_rate_limit u t
          = (if u.intRateLimit ≤ l.length then
               (⟨setReqs rl.dictRequests u.strTokenId l⟩, false)
             else
               (⟨setReqs (setReqs rl.dictRequests u.strTokenId l) u.strTokenId
                   (l ++ [t])⟩, true)) := by
        simp only [InMemoryRateLimiter.check_rate_limit, hlook, hpruned]
      have htail : ∀ x ∈ ts, x ∈ all := fun x hx => hts x (List.mem_cons_of_mem t hx)
      by_cases hq : u.intRateLimit ≤ l.length
      · rw [if_pos hq] at hcheck
        have hstep : (rl.runChecks u (t :: ts)).2
            = false :: ((⟨setReqs rl.dictRequests u.strTokenId l⟩ :
                InMemoryRateLimiter).runChecks u ts).2 := by
          simp only [InMemoryRateLimiter.runChecks, hcheck]
        rw [hstep,
            ih htail ⟨setReqs rl.dictRequests u.strTokenId l⟩ l hl
              (lookupReqs_set_self rl.dictRequests u.strTokenId l),
            expectedDecisions_ge l.length u.intRateLimit ts.length hq]
        simp only [List.length_cons]
        rw [expectedDecisions_ge l.length u.intRateLimit (ts.length + 1) hq,
            List.replicate_succ]
      · rw [if_neg hq] at hcheck
        have hstep : (rl.runChecks u (t :: ts)).2
            = true :: ((⟨setReqs (setReqs rl.dictRequests u.strTokenId l) u.strTokenId
                (l ++ [t])⟩ : InMemoryRateLimiter).runChecks u ts).2 := by
          simp only [InMemoryRateLimiter.runChecks, hcheck]
        have hl2 : ∀ x ∈ l ++ [t], x ∈ all := by
          intro x hx
          rcases List.mem_append.mp hx with hx1 | hx1
          · exact hl x hx1
          · rw [List.mem_singleton.mp hx1]
            exact hmem_t
        rw [hstep,
            ih htail ⟨setReqs (setReqs rl.dictRequests u.strTokenId l) u.strTokenId
                (l ++ [t])⟩ (l ++ [t]) hl2
              (lookupReqs_set_self (setReqs rl.dictRequests u.strTokenId l) u.strTokenId
                (l ++ [t]))]
        simp only [List.length_cons]
        rw [expectedDecisions_succ]
        have hhead : decide (l.length < u.intRateLimit) = true :=
          decide_eq_true (Nat.lt_of_not_le hq)
        rw [hhead]
        congr 1
        simp [expectedDecisions]

theorem redisRunChecks_formula (u : User) (w : Nat) :
    ∀ (ts : List Nat), (∀ t ∈ ts, t / 60 = w) →
    ∀ (rl : RedisRateLimiter) (c : Nat),
      rl.boolRedisAvailable = true →
      lookupCounter rl.counters (u.strTokenId, w) = c →
      (rl.runChecks u ts).2 = expectedDecisions c u.intRateLimit ts.length := by
  intro ts
  induction ts with
  | nil => intro _ rl c _ _; rfl
  | cons t ts ih =>
      intro hts rl c hav hcnt
      have hw : t / 60 = w := hts t (List.mem_cons_self t ts)
      have hcheck : rl.check_rate_limit u t true
          = ({ rl with counters := setCounter rl.counters (u.strTokenId, w) (c + 1) },
             decide (c + 1 ≤ u.intRateLimit)) := by
        simp [RedisRateLimiter.check_rate_limit, hav, hw, hcnt]
      have hstep : (rl.runChecks u (t :: ts)).2
          = decide (c + 1 ≤ u.intRateLimit) ::
            (RedisRateLimiter.runChecks
              { rl with counters := setCounter rl.counters (u.strTokenId, w) (c + 1) }
              u ts).2 := by
        simp only [RedisRateLimiter.runChecks, hcheck]
      rw [hstep,
          ih (fun x hx => hts x (List.mem_cons_of_mem t hx))
            { rl with counters := setCounter rl.counters (u.strTokenId, w) (c + 1) }
            (c + 1) hav
            (lookupCounter_set_self rl.counters (u.strTokenId, w) (c + 1))]
      simp only [List.length_cons]
      rw [expectedDecisions_succ]
      rfl

theorem inMemory_check_preserves_other (rl : InMemoryRateLimiter) (u1 u2 : User) (t : Int)
    (hne : (u2.strTokenId == u1.strTokenId) = false) :
    lookupReqs ((rl.check_rate_limit u1 t).1).dictRequests u2.strTokenId
      = lookupReqs rl.dictRequests u2.strTokenId := by
  simp only [InMemoryRateLimiter.check_rate_limit]
  split
  · exact lookupReqs_set_ne _ _ _ _ hne
  · rw [lookupReqs_set_ne _ _ _ _ hne, lookupReqs_set_ne _ _ _ _ hne]

theorem redis_check_preserves_other (rl : RedisRateLimiter) (u1 u2 : User) (t : Nat)
    (opOk : Bool) (w' : Nat) (hne : (u2.strTokenId == u1.strTokenId) = false) :
    lookupCounter ((rl.check_rate_limit u1 t opOk).1).counters (u2.strTokenId, w')
      = lookupCounter rl.counters (u2.strTokenId, w') := by
  simp only [RedisRateLimiter.check_rate_limit]
  split
  · rfl
  · split
    · rfl
    · have hne' : u2.strTokenId ≠ u1.strTokenId := beq_eq_false_iff_ne.mp hne
      have hkey : (((u2.strTokenId, w') : String × Nat) == (u1.strTokenId, t / 60)) = false := by
        refine beq_eq_false_iff_ne.mpr ?_
        intro hEq
        exact hne' (congrArg Prod.fst hEq)
      exact lookupCounter_set_ne _ _ _ _ hkey

/-- **C6**: a principal with quota Q starting from a clean window is admitted
on exactly the first Q requests of the window and rejected on the (Q+1)-th
and all later ones (decision `i` is `decide (i < Q)`), and an admission check
for one principal's credential never changes the stored state of a different
credential — both for the in-memory variant (`InMemoryRateLimiter`) and for
the shared-counter variant (`RedisRateLimiter`, within one window epoch). -/
theorem C6_rate_limiter_quota :
    (∀ (u : User) (rl : InMemoryRateLimiter) (ts : List Int),
       lookupReqs rl.dictRequests u.strTokenId = [] →
       (∀ a ∈ ts, ∀ b ∈ ts, a - 60 < b) →
       (rl.runChecks u ts).2
         = (List.range ts.length).map (fun i => decide (i < u.intRateLimit))) ∧
    (∀ (rl : InMemoryRateLimiter) (u1 u2 : User) (t : Int),
       (u2.strTokenId == u1.strTokenId) = false →
       lookupReqs ((rl.check_rate_limit u1 t).1).dictRequests u2.strTokenId
         = lookupReqs rl.dictRequests u2.strTokenId) ∧
    (∀ (u : User) (rl : RedisRateLimiter) (ts : List Nat) (w : Nat),
       rl.boolRedisAvailable = true →
       (∀ t ∈ ts, t / 60 = w) →
       lookupCounter rl.counters (u.strTokenId, w) = 0 →
       (rl.runChecks u ts).2
         = (List.range ts.length).map (fun i => decide (i < u.intRateLimit))) ∧
    (∀ (rl : RedisRateLimiter) (u1 u2 : User) (t : Nat) (opOk : Bool) (w' : Nat),
       (u2.strTokenId == u1.strTokenId) = false →
       lookupCounter ((rl.check_rate_limit u1 t opOk).1).counters (u2.strTokenId, w')
         = lookupCounter rl.counters (u2.strTokenId, w')) := by
  refine ⟨?_, inMemory_check_preserves_other, ?_, redis_check_preserves_other⟩
  · intro u rl ts hempty hwin
    rw [runChecks_formula u ts hwin ts (fun t ht => ht) rl [] (by simp) hempty]
    unfold expectedDecisions
    exact List.map_congr_left (fun i _ => decide_eq_decide.mpr (by simp))
  · intro u rl ts w hav hwin hcnt
    rw [redisRunChecks_formula u w ts hwin rl 0 hav hcnt]
    unfold expectedDecisions
    exact List.map_congr_left (fun i _ => decide_eq_decide.mpr (by omega))

/-- A user with quota 2 used in the C6 witness. -/
def userEx : User := ⟨"t1", "alice", Role.JOB_READER, 2, true, none⟩

/-- A second user with a different credential id. -/
def userEx2 : User := ⟨"t2", "bob", Role.JOB_READER, 3, true, none⟩

/-- Witness for C6: with quota 2 and three in-window requests, the decisions
are admit, admit, reject in both variants, and checks for one credential
leave the other credential's state untouched. -/
theorem C6_rate_limiter_quota_witness :
    ((InMemoryRateLimiter.runChecks ⟨[]⟩ userEx [0, 10, 20]).2 = [true, true, false]) ∧
    (lookupReqs (((⟨[]⟩ : InMemoryRateLimiter).check_rate_limit userEx 0).1).dictRequests
        userEx2.strTokenId
      = lookupReqs (⟨[]⟩ : InMemoryRateLimiter).dictRequests userEx2.strTokenId) ∧
    ((RedisRateLimiter.runChecks ⟨"closed", true, []⟩ userEx [0, 10, 20]).2
      = [true, true, false]) ∧
    (lookupCounter (((⟨"closed", true, []⟩ : RedisRateLimiter).check_rate_limit userEx 0
        true).1).counters (userEx2.strTokenId, 0)
      = lookupCounter (⟨"closed", true, []⟩ : RedisRateLimiter).counters
          (userEx2.strTokenId, 0)) := by
  refine ⟨?_, ?_, ?_, ?_⟩
  · rw [C6_rate_limiter_quota.1 userEx ⟨[]⟩ [0, 10, 20] rfl (by decide)]
    decide
  · exact C6_rate_limiter_quota.2.1 ⟨[]⟩ userEx userEx2 0 (by decide)
  · rw [C6_rate_limiter_quota.2.2.1 userEx ⟨"closed", true, []⟩ [0, 10, 20] 0 rfl
        (by decide) rfl]
    decide
  · exact C6_rate_limiter_quota.2.2.2 ⟨"closed", true, []⟩ userEx userEx2 0 true 0 (by decide)

/-- **C7**: while the shared backend is unreachable, every admission decision
of `RedisRateLimiter` is determined solely by the configured failure policy —
`"open"` admits every request, `"closed"` rejects every request — both when
the availability flag is already down and when the Redis call itself fails
(which also marks the backend unavailable); and the connectivity check
honours the same policy: a failed `connect` leaves the limiter unavailable
and re-raises exactly when the policy is `"closed"`. -/
theorem C7_redis_fail_policy (rl : RedisRateLimiter) (u : User) (now : Nat) (opOk : Bool) :
    (rl.boolRedisAvailable = false →
       rl.check_rate_limit u now opOk = (rl, rl.strFailMode == "open")) ∧
    (rl.boolRedisAvailable = false → rl.strFailMode = "open" →
       (rl.check_rate_limit u now opOk).2 = true) ∧
    (rl.boolRedisAvailable = false → rl.strFailMode = "closed" →
       (rl.check_rate_limit u now opOk).2 = false) ∧
    (rl.boolRedisAvailable = true →
       rl.check_rate_limit u now false
         = ({ rl with boolRedisAvailable := false }, rl.strFailMode == "open")) ∧
    ((rl.connect false).1.boolRedisAvailable = false ∧
     (rl.connect false).2 = (rl.strFailMode == "closed")) := by
  refine ⟨?_, ?_, ?_, ?_, ?_, ?_⟩
  · intro h
    simp [RedisRateLimiter.check_rate_limit, h]
  · intro h hm
    simp [RedisRateLimiter.check_rate_limit, h, hm]
  · intro h hm
    simp [RedisRateLimiter.check_rate_limit, h, hm]
  · intro h
    simp [RedisRateLimiter.check_rate_limit, h]
  · simp [RedisRateLimiter.connect]
  · simp [RedisRateLimiter.connect]

/-- Witness for C7 at concrete limiters: fail-open admits and fail-closed
rejects while unavailable; a failing Redis call degrades availability and
answers by policy; a failed connect raises in closed mode and not in open
mode. -/
theorem C7_redis_fail_policy_witness :
    (((⟨"open", false, []⟩ : RedisRateLimiter).check_rate_limit userEx 0 true).2 = true) ∧
    (((⟨"closed", false, []⟩ : RedisRateLimiter).check_rate_limit userEx 0 true).2 = false) ∧
    ((⟨"open", true, []⟩ : RedisRateLimiter).check_rate_limit userEx 0 false
       = (⟨"open", false, []⟩, true)) ∧
    ((((⟨"closed", true, []⟩ : RedisRateLimiter).connect false).2 = true) ∧
     (((⟨"open", true, []⟩ : RedisRateLimiter).connect false).2 = false)) :=
  ⟨(C7_redis_fail_policy ⟨"open", false, []⟩ userEx 0 true).2.1 rfl rfl,
   (C7_redis_fail_policy ⟨"closed", false, []⟩ userEx 0 true).2.2.1 rfl rfl,
   (C7_redis_fail_policy ⟨"open", true, []⟩ userEx 0 false).2.2.2.1 rfl,
   ⟨(C7_redis_fail_policy ⟨"closed", true, []⟩ userEx 0 true).2.2.2.2.2,
    (C7_redis_fail_policy ⟨"open", true, []⟩ userEx 0 true).2.2.2.2.2⟩⟩
